import Mathlib

/-!
Verification of the grouped-aggregation core (Grouper, hash-aggregate
kernels, aggregate exec nodes) against its specification.

The exec-node orchestration (`ScalarAggregateNode`, `GroupByNode`) is
embedded from `cpp/src/arrow/compute/exec/aggregate_node.cc`.  The
Grouper and the hash-aggregate kernels live outside the sources at hand
(only their tests and callers are present), so those are modelled from
the specification, as marked on each definition.

Layout: all definitions first, then the lemmas and the claim theorems.
-/

namespace ArrowAgg

/-- Error kinds of the engine's status values (spec §7). -/
inductive AError
  | notImplemented (msg : String)
  | invalid (msg : String)
  | indexError (msg : String)
  | keyError (msg : String)
deriving DecidableEq, Repr

/-! ## Grouper

Modelled from the spec: the Grouper (`arrow::compute::Grouper`, whose
implementation file is not among the sources; only its tests and the
exec-node caller are).  Per spec §4.2 / §3 it maps each consumed key row
to a dense group id assigned in order of first appearance; `num_groups`
is the count of distinct key tuples observed; `get_uniques` returns the
distinct key tuples in id order. -/
structure Grouper (K : Type) where
  uniques : List K
deriving Repr, DecidableEq

namespace Grouper

variable {K : Type} [DecidableEq K]

def empty : Grouper K := ⟨[]⟩

def numGroups (g : Grouper K) : Nat := g.uniques.length

/-- Consume a single key row: return the id of the row's key tuple,
assigning the next dense id if the tuple is new. -/
def consume1 (g : Grouper K) (k : K) : Grouper K × Nat :=
  if k ∈ g.uniques then (g, g.uniques.indexOf k)
  else (⟨g.uniques ++ [k]⟩, g.uniques.length)

/-- Consume a key batch (a list of rows): the returned id column has one
id per row, in row order. -/
def consume (g : Grouper K) (rows : List K) : Grouper K × List Nat :=
  match rows with
  | [] => (g, [])
  | k :: rest =>
    let (g1, id1) := g.consume1 k
    let (g2, ids) := g1.consume rest
    (g2, id1 :: ids)

/-- Consume a sequence of batches, concatenating the id columns. -/
def consumeBatches (g : Grouper K) (batches : List (List K)) :
    Grouper K × List Nat :=
  match batches with
  | [] => (g, [])
  | b :: rest =>
    let (g1, ids1) := g.consume b
    let (g2, ids2) := g1.consumeBatches rest
    (g2, ids1 ++ ids2)

def getUniques (g : Grouper K) : List K := g.uniques

end Grouper

/-! ## MakeGroupings

Modelled from the spec: `Grouper::MakeGroupings` (implementation not
among the sources).  Spec §4.2: given an id column, return a list column
of length `num_groups` whose i-th element is the ascending row-index
positions in `ids` that equal `i`; fails with
`Invalid("MakeGroupings with null ids")` if any id is null. -/
def groupingsOf (ids : List (Option Nat)) (numGroups : Nat) :
    List (List Nat) :=
  (List.range numGroups).map fun g =>
    (List.range ids.length).filter fun r => ids.getD r none = some g

def makeGroupings (ids : List (Option Nat)) (numGroups : Nat) :
    Except AError (List (List Nat)) :=
  if ids.any (·.isNone) then
    .error (.invalid "MakeGroupings with null ids")
  else
    .ok (groupingsOf ids numGroups)

/-! ## Dictionary-keyed Grouper

Modelled from the spec: the dictionary-key path of the Grouper's key
encoder (implementation not among the sources).  Spec §4.1: the
dictionaries of all batches submitted to a given Grouper must be
bit-identical; if a later batch arrives with a different dictionary,
consumption fails with `NotImplemented("Unifying differing
dictionaries")`.  `D` is the dictionary representation, rows are
dictionary indices (`none` encodes a null index). -/
structure DictGrouper (D K : Type) where
  dict : Option D
  inner : Grouper K
deriving Repr

def DictGrouper.empty {D K : Type} : DictGrouper D K := ⟨none, Grouper.empty⟩

def DictGrouper.consume {D K : Type} [DecidableEq D] [DecidableEq K]
    (g : DictGrouper D K) (d : D) (rows : List K) :
    Except AError (DictGrouper D K × List Nat) :=
  match g.dict with
  | none =>
    let (g1, ids) := g.inner.consume rows
    .ok (⟨some d, g1⟩, ids)
  | some d0 =>
    if d = d0 then
      let (g1, ids) := g.inner.consume rows
      .ok (⟨some d0, g1⟩, ids)
    else
      .error (.notImplemented "Unifying differing dictionaries")

/-! ## Hash-aggregate kernel interface and the count kernel

The kernel contract follows spec §4.3 (init / resize / consume / merge /
finalize); the count kernel is modelled from the spec's kernel
catalogue: per-group state `(valid_count, null_count)`, incrementing one
side per row, `ONLY_VALID` finalize picks the valid count. -/
structure HashKernel (V S C : Type) where
  init : S
  resize : S → Nat → S
  consume : S → List (Option V) → List Nat → S
  merge : S → S → List Nat → S
  finalize : S → List C

/-- Count-kernel state: one `(valid_count, null_count)` accumulator per
group, indexed by group id. -/
abbrev CountState : Type := List (Nat × Nat)

def countResize (s : CountState) (n : Nat) : CountState :=
  s ++ List.replicate (n - s.length) (0, 0)

def countConsume1 {V : Type} (s : CountState) (v : Option V) (gid : Nat) :
    CountState :=
  match s.get? gid with
  | none => s
  | some (va, nu) =>
    match v with
    | some _ => s.set gid (va + 1, nu)
    | none => s.set gid (va, nu + 1)

def countConsume {V : Type} (s : CountState) (vals : List (Option V))
    (ids : List Nat) : CountState :=
  (vals.zip ids).foldl (fun acc vg => countConsume1 acc vg.1 vg.2) s

/-- Merge: group `j` of the source corresponds to group `transpose[j]`
of the destination (spec §4.3 merge contract). -/
def countMerge (dst src : CountState) (transpose : List Nat) : CountState :=
  (src.zip transpose).foldl
    (fun acc p =>
      match acc.get? p.2 with
      | none => acc
      | some (dva, dnu) => acc.set p.2 (dva + p.1.1, dnu + p.1.2))
    dst

/-- Finalize in `ONLY_VALID` mode: the valid count per group. -/
def countFinalize (s : CountState) : List Nat := s.map (·.1)

def countKernel (V : Type) : HashKernel V CountState Nat :=
  ⟨[], countResize, countConsume, countMerge, countFinalize⟩

/-! ## GroupByNode

Embedded from `GroupByNode` in
`cpp/src/arrow/compute/exec/aggregate_node.cc`, specialized to a single
aggregate (the source loops the same steps over each aggregate
independently) and to the thread-0 partition for the serial input path.
A batch row is a `(value, key)` pair; `none` encodes a null value. -/

/-- `static_cast<int>` on an `int64_t` value: truncation to the 32-bit
two's-complement range. -/
def toInt32 (x : Int) : Int := (x + 2 ^ 31) % 2 ^ 32 - 2 ^ 31

/-- `GroupByNode::output_batch_size` (aggregate_node.cc:648-654):
`int result = static_cast<int>(ctx_->exec_chunksize()); if (result < 0)
result = 32 * 1024;`. -/
def outputBatchSize (execChunksize : Int) : Int :=
  let result := toInt32 execChunksize
  if result < 0 then 32 * 1024 else result

/-- `bit_util::CeilDiv` on nonnegative operands. -/
def ceilDiv (a b : Nat) : Nat := (a + b - 1) / b

structure GBNode (K V S C : Type) where
  kernel : HashKernel V S C
  execChunksize : Int
  grouper : Option (Grouper K)
  aggState : S
  inputCount : Nat
  inputTotal : Option Nat
  outputCount : Nat
  outputTotal : Option Nat
  outData : List (C × K)
  downstreamTotal : Option Nat
  delivered : List (List (C × K))
  finished : Bool

namespace GBNode

variable {K V S C : Type} [DecidableEq K]

def make (kernel : HashKernel V S C) (execChunksize : Int) :
    GBNode K V S C :=
  { kernel := kernel
    execChunksize := execChunksize
    grouper := none
    aggState := kernel.init
    inputCount := 0
    inputTotal := none
    outputCount := 0
    outputTotal := none
    outData := []
    downstreamTotal := none
    delivered := []
    finished := false }

/-- `GroupByNode::InitLocalStateIfNeeded` (aggregate_node.cc:617-646),
thread-0 slot. -/
def initLocalStateIfNeeded (n : GBNode K V S C) : GBNode K V S C :=
  match n.grouper with
  | some _ => n
  | none => { n with grouper := some Grouper.empty, aggState := n.kernel.init }

/-- `GroupByNode::Consume` (aggregate_node.cc:357-402): assemble the key
batch, consume it through the grouper, then resize the kernel state to
`num_groups` and consume the `(values, ids)` pair. -/
def consumeBatch (n : GBNode K V S C) (batch : List (Option V × K)) :
    GBNode K V S C :=
  let n := n.initLocalStateIfNeeded
  match n.grouper with
  | none => n
  | some g =>
    let keys := batch.map (·.2)
    let (g1, ids) := g.consume keys
    let s1 := n.kernel.resize n.aggState g1.numGroups
    let s2 := n.kernel.consume s1 (batch.map (·.1)) ids
    { n with grouper := some g1, aggState := s2 }

/-- `GroupByNode::Finalize` (aggregate_node.cc:440-477): finalize the
kernel into the aggregate column, append the unique keys, and set the
output-counter total to `CeilDiv(out_data.length, output_batch_size())`;
a zero total finishes the node immediately. -/
def finalize (n : GBNode K V S C) : GBNode K V S C :=
  let n := n.initLocalStateIfNeeded
  match n.grouper with
  | none => n
  | some g =>
    let aggCol := n.kernel.finalize n.aggState
    let outData := aggCol.zip g.getUniques
    let total := ceilDiv outData.length (outputBatchSize n.execChunksize).toNat
    { n with
      grouper := none
      outData := outData
      outputTotal := some total
      finished := n.finished || total = 0 }

/-- The rows of the `n`-th output chunk:
`out_data_.Slice(batch_size * n, batch_size)`. -/
def chunk (n : GBNode K V S C) (i : Nat) : List (C × K) :=
  let bs := (outputBatchSize n.execChunksize).toNat
  (n.outData.drop (bs * i)).take bs

/-- `GroupByNode::OutputNthBatch` (aggregate_node.cc:479-489): bail if
the finished future is resolved; otherwise deliver the `i`-th slice of
the finalized result and increment the output counter, finishing when it
reaches the total. -/
def outputNthBatch (n : GBNode K V S C) (i : Nat) : GBNode K V S C :=
  if n.finished then n
  else
    let n1 := { n with delivered := n.delivered ++ [n.chunk i] }
    let c := n1.outputCount + 1
    { n1 with
      outputCount := c
      finished := n1.outputTotal = some c }

/-- Serial branch of `GroupByNode::OutputResult`
(aggregate_node.cc:491-512) with no executor configured: announce the
chunk count downstream, then run `OutputNthBatch i` for
`i = 0 … num_output_batches - 1` inline. -/
def outputResultSerial (n : GBNode K V S C) : GBNode K V S C :=
  let n := n.finalize
  let total := n.outputTotal.getD 0
  let n := { n with downstreamTotal := some total }
  (List.range total).foldl outputNthBatch n

/-- Executor branch of `GroupByNode::OutputResult`: each chunk index is
spawned as an independent task; `sched` is the order in which the
executor happens to run the spawned tasks. -/
def outputResultWithExecutor (n : GBNode K V S C) (sched : List Nat) :
    GBNode K V S C :=
  let n := n.finalize
  let total := n.outputTotal.getD 0
  let n := { n with downstreamTotal := some total }
  sched.foldl outputNthBatch n

/-- `GroupByNode::InputReceived` (aggregate_node.cc:514-532), serial
path: bail if the finished future is resolved; otherwise consume the
batch and, when the input counter reaches its total, produce the
output. -/
def inputReceived (n : GBNode K V S C) (batch : List (Option V × K)) :
    GBNode K V S C :=
  if n.finished then n
  else
    let n1 := n.consumeBatch batch
    let c := n1.inputCount + 1
    let n1 := { n1 with inputCount := c }
    if n1.inputTotal = some c then n1.outputResultSerial else n1

/-- `GroupByNode::InputFinished` (aggregate_node.cc:542-553): bail if
the finished future is resolved; otherwise record the input total and,
when the counter already equals it, produce the output. -/
def inputFinished (n : GBNode K V S C) (totalBatches : Nat) :
    GBNode K V S C :=
  if n.finished then n
  else
    let n1 := { n with inputTotal := some totalBatches }
    if n1.inputCount = totalBatches then n1.outputResultSerial else n1

/-- Run the node serially over a list of input batches followed by the
input-total announcement, as the single-threaded executor does. -/
def runSerial (n : GBNode K V S C) (batches : List (List (Option V × K))) :
    GBNode K V S C :=
  (batches.foldl inputReceived n).inputFinished batches.length

end GBNode

/-! ## Two-partition merge path

Embedded from `GroupByNode::Consume` and `GroupByNode::Merge`
(aggregate_node.cc:404-438): each partition owns a Grouper and a kernel
state; the leader consumes the other partition's uniques to obtain the
transposition, resizes to its new group count, and merges the other
partition's state through the transposition. -/
def partitionConsume {K V S C : Type} [DecidableEq K]
    (kernel : HashKernel V S C) (p : Grouper K × S)
    (batch : List (Option V × K)) : Grouper K × S :=
  let (g1, ids) := p.1.consume (batch.map (·.2))
  let s1 := kernel.resize p.2 g1.numGroups
  (g1, kernel.consume s1 (batch.map (·.1)) ids)

def mergePartitions {K V S C : Type} [DecidableEq K]
    (kernel : HashKernel V S C) (leader other : Grouper K × S) :
    Grouper K × S :=
  let (g1, transpose) := leader.1.consume other.1.getUniques
  let s1 := kernel.resize leader.2 g1.numGroups
  (g1, kernel.merge s1 other.2 transpose)

def finalizePartition {K V S C : Type} [DecidableEq K]
    (kernel : HashKernel V S C) (p : Grouper K × S) : List (C × K) :=
  (kernel.finalize p.2).zip p.1.getUniques

/-! ## ScalarAggregateNode

Embedded from `ScalarAggregateNode` in
`cpp/src/arrow/compute/exec/aggregate_node.cc`.  A scalar-aggregate
kernel consumes one column of the input batch (its target field);
`mergeAll` folds the per-thread states into the first one
(`ScalarAggregateKernel::MergeAll`). -/
structure SAKernel (B S C : Type) where
  init : S
  consume : S → B → S
  merge2 : S → S → S
  finalize : S → C

def mergeAll {B S C : Type} (k : SAKernel B S C) (states : List S) : S :=
  match states with
  | [] => k.init
  | s0 :: rest => rest.foldl k.merge2 s0

/-- Node state: one `(kernel, target field id, per-thread states)`
triple per aggregate, as in the parallel arrays `kernels_`,
`target_field_ids_`, `states_` of the source. -/
structure SANode (B S C : Type) where
  kernelStates : List (SAKernel B S C × Nat × List S)
  inputCount : Nat
  inputTotal : Option Nat
  delivered : List (Nat × List C)
  finished : Bool

namespace SANode

variable {B S C : Type} [Inhabited B]

/-- `ScalarAggregateNode::Make` (aggregate_node.cc:78-137): per-kernel
states are initialized at construction via `Kernel::InitAll`, one state
per thread-pool slot. -/
def make (kernels : List (SAKernel B S C × Nat)) (capacity : Nat) :
    SANode B S C :=
  { kernelStates :=
      kernels.map fun kf => (kf.1, kf.2, List.replicate capacity kf.1.init)
    inputCount := 0
    inputTotal := none
    delivered := []
    finished := false }

/-- `ScalarAggregateNode::DoConsume` (aggregate_node.cc:141-161): each
kernel consumes the single-column batch of its target field on the
worker's thread slot.  The input batch is its list of columns. -/
def doConsume (n : SANode B S C) (batch : List B) (thread : Nat) :
    SANode B S C :=
  { n with
    kernelStates :=
      n.kernelStates.map fun kfs =>
        let st := (kfs.2.2.get? thread).getD kfs.1.init
        (kfs.1, kfs.2.1,
          kfs.2.2.set thread (kfs.1.consume st (batch.getD kfs.2.1 default))) }

/-- The columns of the final output batch: the i-th kernel finalized
over the merge of its per-thread states. -/
def finalColumns (n : SANode B S C) : List C :=
  n.kernelStates.map fun kfs => kfs.1.finalize (mergeAll kfs.1 kfs.2.2)

/-- `ScalarAggregateNode::Finish` (aggregate_node.cc:239-262): one
output batch of length 1 whose i-th column is the i-th kernel finalized
over the merge of its per-thread states. -/
def finish (n : SANode B S C) : SANode B S C :=
  { n with delivered := n.delivered ++ [(1, n.finalColumns)], finished := true }

/-- `ScalarAggregateNode::InputReceived` (aggregate_node.cc:163-179). -/
def inputReceived (n : SANode B S C) (batch : List B) (thread : Nat) :
    SANode B S C :=
  let n1 := n.doConsume batch thread
  let c := n1.inputCount + 1
  let n1 := { n1 with inputCount := c }
  if n1.inputTotal = some c then n1.finish else n1

/-- `ScalarAggregateNode::InputFinished` (aggregate_node.cc:187-193). -/
def inputFinished (n : SANode B S C) (totalBatches : Nat) : SANode B S C :=
  let n1 := { n with inputTotal := some totalBatches }
  if n1.inputCount = totalBatches then n1.finish else n1

/-- Serial run on thread 0: deliver each input batch, then announce the
input total. -/
def runSerial (n : SANode B S C) (batches : List (List B)) : SANode B S C :=
  (batches.foldl (fun m b => m.inputReceived b 0) n).inputFinished
    batches.length

end SANode

/-- The validation fragment of `ScalarAggregateNode::Make`
(aggregate_node.cc:99-110) for one aggregate: resolve the function in
the registry, then require its kind to be `SCALAR_AGGREGATE`, else fail
with `Invalid("Provided non ScalarAggregateFunction <name>")`.
`getFunction` stands for `exec_ctx->func_registry()->GetFunction`. -/
inductive FunctionKind
  | scalar | vector | scalarAggregate | hashAggregate | scalarMeta
deriving DecidableEq, Repr

def resolveScalarAggregate (getFunction : String → Except AError FunctionKind)
    (name : String) : Except AError FunctionKind :=
  match getFunction name with
  | .error e => .error e
  | .ok kind =>
    if kind ≠ .scalarAggregate then
      .error (.invalid ("Provided non ScalarAggregateFunction " ++ name))
    else
      .ok kind

/-! ## Concrete material for the test scenarios -/

/-- Total order used to sort output rows by key, nulls last (as the
tests' `SortBy` does for the S1 expectation). -/
def keyLe (a b : Option Int) : Bool :=
  match a, b with
  | none, none => true
  | none, some _ => false
  | some _, none => true
  | some x, some y => x ≤ y

def insertLe {α : Type} (r : α → α → Bool) (x : α) : List α → List α
  | [] => [x]
  | y :: ys => if r x y then x :: y :: ys else y :: insertLe r x ys

def sortLe {α : Type} (r : α → α → Bool) : List α → List α
  | [] => []
  | x :: xs => insertLe r x (sortLe r xs)

/-- The S1 (CountOnly) input, split into the test's three record
batches: rows are `(argument, key)` with `none` for null. -/
def s1Batch1 : List (Option ℚ × Option Int) :=
  [(some 1, some 1), (none, some 1)]

def s1Batch2 : List (Option ℚ × Option Int) :=
  [(some 0, some 2), (none, some 3), (some 4, none),
   (some (325 / 100), some 1), (some (125 / 1000), some 2)]

def s1Batch3 : List (Option ℚ × Option Int) :=
  [(some (-25 / 100), some 2), (some (75 / 100), none), (none, some 3)]

def s1Batches : List (List (Option ℚ × Option Int)) :=
  [s1Batch1, s1Batch2, s1Batch3]

def s1Expected : List (Nat × Option Int) :=
  [(2, some 1), (3, some 2), (0, some 3), (2, none)]

/-- Run the two-partition merged path on S1: each of the three batches
is assigned to partition 0 or 1 by `assign`, the partitions consume
their batches in order, partition 0 (the leader) absorbs partition 1,
and the leader is finalized. -/
def s1MergedRun (assign : List Bool) : List (Nat × Option Int) :=
  let kern := countKernel ℚ
  let pick := fun (b : Bool) =>
    ((s1Batches.zip assign).filter (fun p => p.2 = b)).map (·.1)
  let p0 := (pick false).foldl (partitionConsume kern)
    (Grouper.empty, kern.init)
  let p1 := (pick true).foldl (partitionConsume kern)
    (Grouper.empty, kern.init)
  finalizePartition kern (mergePartitions kern p0 p1)

/-- All assignments of the three S1 batches to two partitions. -/
def s1Assignments : List (List Bool) :=
  [[false, false, false], [false, false, true], [false, true, false],
   [false, true, true], [true, false, false], [true, false, true],
   [true, true, false], [true, true, true]]

/-- Bit patterns of the S6 float32 keys; spec §3 defines key equality
on floats as bit-pattern identity, so a float key is embedded as its
IEEE-754 bit pattern. -/
def fbitsPosZero : Nat := 0x00000000
def fbitsNegZero : Nat := 0x80000000
def fbitsPosInf : Nat := 0x7F800000
def fbitsNegInf : Nat := 0xFF800000
def fbitsNan : Nat := 0x7FC00000

def s6Keys : List Nat :=
  [fbitsPosZero, fbitsNegZero, fbitsPosInf, fbitsNegInf, fbitsNan, fbitsNan]

/-- A concrete GroupByNode whose finished future has resolved. -/
def gbFinishedNode : GBNode (Option Int) ℚ CountState Nat :=
  { GBNode.make (countKernel ℚ) 1 with finished := true }

/-- A concrete GroupByNode holding two one-row groups with exec chunk
size 1, so that its finalized result splits into two chunks. -/
def twoChunkNode : GBNode (Option Int) ℚ CountState Nat :=
  (GBNode.make (countKernel ℚ) 1).consumeBatch
    [(some 1, some 10), (some 1, some 20)]

/-- A concrete scalar-aggregate kernel (a running sum) for witnesses. -/
def demoSAKernel : SAKernel Nat Nat Nat :=
  ⟨0, fun s b => s + b, fun a b => a + b, fun s => s⟩

/-! ## Grouper lemmas -/

namespace Grouper

variable {K : Type} [DecidableEq K]

theorem consume1_extends (g : Grouper K) (k : K) :
    g.uniques <+: (g.consume1 k).1.uniques := by
  unfold consume1
  split
  · exact List.prefix_refl _
  · exact ⟨[k], rfl⟩

theorem consume1_id_lt (g : Grouper K) (k : K) :
    (g.consume1 k).2 < (g.consume1 k).1.numGroups := by
  unfold consume1 numGroups
  split
  · simpa using List.indexOf_lt_length.2 (by assumption)
  · simp

theorem consume1_nodup (g : Grouper K) (k : K) (h : g.uniques.Nodup) :
    (g.consume1 k).1.uniques.Nodup := by
  unfold consume1
  split
  · exact h
  · simpa [List.nodup_append] using ⟨h, by assumption⟩

theorem consume1_mem (g : Grouper K) (k : K) (x : K) :
    x ∈ (g.consume1 k).1.uniques ↔ x ∈ g.uniques ∨ x = k := by
  unfold consume1
  split
  · constructor
    · exact fun hx => Or.inl hx
    · rintro (hx | rfl)
      · exact hx
      · assumption
  · simp

theorem consume_extends (g : Grouper K) (rows : List K) :
    g.uniques <+: (g.consume rows).1.uniques := by
  induction rows generalizing g with
  | nil => exact List.prefix_refl _
  | cons k rest ih =>
    simp only [consume]
    exact (consume1_extends g k).trans (ih _)

theorem numGroups_mono_consume (g : Grouper K) (rows : List K) :
    g.numGroups ≤ (g.consume rows).1.numGroups :=
  (consume_extends g rows).length_le

theorem consume_ids_lt (g : Grouper K) (rows : List K) :
    ∀ i ∈ (g.consume rows).2, i < (g.consume rows).1.numGroups := by
  induction rows generalizing g with
  | nil => simp [consume]
  | cons k rest ih =>
    intro i hi
    simp only [consume, List.mem_cons] at hi
    rcases hi with rfl | hi
    · calc (g.consume1 k).2 < (g.consume1 k).1.numGroups := consume1_id_lt g k
        _ ≤ _ := numGroups_mono_consume _ rest
    · exact ih _ i hi

theorem consume_nodup (g : Grouper K) (rows : List K) (h : g.uniques.Nodup) :
    (g.consume rows).1.uniques.Nodup := by
  induction rows generalizing g with
  | nil => exact h
  | cons k rest ih => exact ih _ (consume1_nodup g k h)

theorem consume_mem (g : Grouper K) (rows : List K) (x : K) :
    x ∈ (g.consume rows).1.uniques ↔ x ∈ g.uniques ∨ x ∈ rows := by
  induction rows generalizing g with
  | nil => simp [consume]
  | cons k rest ih =>
    simp only [consume]
    rw [ih, consume1_mem]
    simp only [List.mem_cons]
    tauto

theorem consume_ids_surj (g : Grouper K) (rows : List K) :
    ∀ j, g.numGroups ≤ j → j < (g.consume rows).1.numGroups →
      j ∈ (g.consume rows).2 := by
  induction rows generalizing g with
  | nil =>
    intro j h1 h2
    simp only [consume, numGroups] at h1 h2
    omega
  | cons k rest ih =>
    intro j h1 h2
    simp only [consume] at h2 ⊢
    by_cases hj : (g.consume1 k).1.numGroups ≤ j
    · exact List.mem_cons_of_mem _ (ih _ j hj h2)
    · push_neg at hj
      -- j is below the post-consume1 group count but at least the old one:
      -- consume1 must have added k as a new group, and j is its id.
      have hjeq : j = (g.consume1 k).2 := by
        simp only [numGroups] at h1
        by_cases hk : k ∈ g.uniques
        · simp only [consume1, numGroups, if_pos hk] at hj
          exact absurd (lt_of_lt_of_le hj h1) (lt_irrefl j)
        · simp only [consume1, numGroups, if_neg hk, List.length_append,
            List.length_singleton] at hj ⊢
          omega
      exact hjeq ▸ List.mem_cons_self _ _

theorem consume_append (g : Grouper K) (a b : List K) :
    g.consume (a ++ b) =
      (((g.consume a).1.consume b).1,
        (g.consume a).2 ++ ((g.consume a).1.consume b).2) := by
  induction a generalizing g with
  | nil => simp [consume]
  | cons k rest ih =>
    simp only [List.cons_append, consume]
    rw [show rest.append b = rest ++ b from rfl, ih]

theorem consumeBatches_eq_consume_flatten (g : Grouper K)
    (bs : List (List K)) : g.consumeBatches bs = g.consume bs.flatten := by
  induction bs generalizing g with
  | nil => simp [consumeBatches, consume]
  | cons b rest ih =>
    simp only [consumeBatches, List.flatten_cons]
    rw [consume_append, ih]

end Grouper

/-- C3: for every Grouper and every sequence of consume calls starting
from a fresh Grouper, every emitted group id is in `[0, num_groups)`,
`num_groups` equals the number of distinct key tuples observed, and
every integer in `[0, num_groups)` is emitted for at least one consumed
row. -/
theorem grouper_dense_ids {K : Type} [DecidableEq K]
    (batches : List (List K)) :
    (∀ i ∈ (Grouper.empty.consumeBatches batches).2,
        i < (Grouper.empty.consumeBatches batches).1.numGroups) ∧
    (Grouper.empty.consumeBatches batches).1.numGroups
        = batches.flatten.toFinset.card ∧
    (∀ j < (Grouper.empty.consumeBatches batches).1.numGroups,
        j ∈ (Grouper.empty.consumeBatches batches).2) := by
  rw [Grouper.consumeBatches_eq_consume_flatten]
  refine ⟨Grouper.consume_ids_lt _ _, ?_, ?_⟩
  · have hnd : (Grouper.empty.consume batches.flatten).1.uniques.Nodup :=
      Grouper.consume_nodup _ _ (by simp [Grouper.empty])
    have hset : (Grouper.empty.consume batches.flatten).1.uniques.toFinset
        = batches.flatten.toFinset := by
      ext x
      simp [Grouper.consume_mem, Grouper.empty]
    calc (Grouper.empty.consume batches.flatten).1.numGroups
        = (Grouper.empty.consume batches.flatten).1.uniques.toFinset.card :=
          (List.toFinset_card_of_nodup hnd).symm
      _ = batches.flatten.toFinset.card := by rw [hset]
  · intro j hj
    exact Grouper.consume_ids_surj _ _ j (by simp [Grouper.empty, Grouper.numGroups]) hj

/-- Witness for `grouper_dense_ids` at a concrete input. -/
theorem grouper_dense_ids_witness :
    (0 ∈ (Grouper.empty.consumeBatches (K := Nat) [[5, 7], [7, 9]]).2) ∧
    ((Grouper.empty.consumeBatches (K := Nat) [[5, 7], [7, 9]]).1.numGroups
      = [[5, 7], [7, 9]].flatten.toFinset.card) ∧
    (1 ∈ (Grouper.empty.consumeBatches (K := Nat) [[5, 7], [7, 9]]).2) :=
  ⟨(grouper_dense_ids [[5, 7], [7, 9]]).2.2 0 (by decide),
   (grouper_dense_ids [[5, 7], [7, 9]]).2.1,
   (grouper_dense_ids [[5, 7], [7, 9]]).2.2 1 (by decide)⟩

/-- C5: for every ids column with no nulls, `makeGroupings` returns a
list column of length `num_groups` whose i-th element is the ascending
sequence of row positions equal to `i`; the S4 instance evaluates to
`[[0,1,2],[3,4],[5],[]]`; and any null id fails with
`Invalid("MakeGroupings with null ids")`. -/
theorem makeGroupings_spec :
    (∀ (ids : List (Option Nat)) (n : Nat), (∀ x ∈ ids, x.isSome) →
      makeGroupings ids n = .ok (groupingsOf ids n) ∧
      (groupingsOf ids n).length = n ∧
      (∀ g, g < n →
        ((groupingsOf ids n).getD g []).Pairwise (· < ·) ∧
        (∀ r, r ∈ (groupingsOf ids n).getD g [] ↔
          r < ids.length ∧ ids.getD r none = some g))) ∧
    makeGroupings [some 0, some 0, some 0, some 1, some 1, some 2] 4
      = .ok [[0, 1, 2], [3, 4], [5], []] ∧
    (∀ (ids : List (Option Nat)) (n : Nat), none ∈ ids →
      makeGroupings ids n
        = .error (.invalid "MakeGroupings with null ids")) := by
  refine ⟨?_, by rfl, ?_⟩
  case refine_2 =>
    intro ids n hnull
    unfold makeGroupings
    rw [if_pos (List.any_eq_true.2 ⟨none, hnull, rfl⟩)]
  intro ids n h
  have hok : makeGroupings ids n = .ok (groupingsOf ids n) := by
    unfold makeGroupings
    rw [if_neg]
    simp only [List.any_eq_true, Option.isNone_iff_eq_none, not_exists, not_and]
    rintro x hx rfl
    simpa using h none hx
  refine ⟨hok, by simp [groupingsOf], ?_⟩
  intro g hg
  have hgetD : (groupingsOf ids n).getD g []
      = (List.range ids.length).filter fun r => ids.getD r none = some g := by
    simp [groupingsOf, List.getD_eq_getElem?_getD, List.getElem?_map,
      List.getElem?_range, hg]
  constructor
  · rw [hgetD]
    exact List.Pairwise.sublist (List.filter_sublist _)
      (List.pairwise_lt_range _)
  · intro r
    rw [hgetD]
    simp [List.mem_filter, List.mem_range]

/-- Witness for `makeGroupings_spec` at a concrete null-free input and
at the S4 null instance. -/
theorem makeGroupings_spec_witness :
    makeGroupings [some 1, some 0] 2 = .ok (groupingsOf [some 1, some 0] 2) ∧
    (groupingsOf [some 1, some 0] 2).length = 2 ∧
    (1 ∈ (groupingsOf [some 1, some 0] 2).getD 0 [] ↔
      1 < [some 1, some 0].length ∧ [some 1, some 0].getD 1 none = some 0) ∧
    makeGroupings [some 0, none, some 1] 5
      = .error (.invalid "MakeGroupings with null ids") :=
  ⟨(makeGroupings_spec.1 [some 1, some 0] 2 (by decide)).1,
   (makeGroupings_spec.1 [some 1, some 0] 2 (by decide)).2.1,
   ((makeGroupings_spec.1 [some 1, some 0] 2 (by decide)).2.2 0 (by decide)).2 1,
   makeGroupings_spec.2.2 [some 0, none, some 1] 5 (by decide)⟩

/-- C6: over a single float key column (keys embedded as their IEEE-754
bit patterns, the spec's float key equality), `-0.0` and `+0.0` receive
distinct group ids, bitwise-equal NaNs receive the same id, and the S6
key sequence `[0.0, -0.0, Inf, -Inf, NaN, NaN]` yields ids
`[0, 1, 2, 3, 4, 4]`. -/
theorem grouper_float_key_ids :
    (Grouper.empty.consume s6Keys).2 = [0, 1, 2, 3, 4, 4] ∧
    (Grouper.empty.consume s6Keys).2.getD 0 0
      ≠ (Grouper.empty.consume s6Keys).2.getD 1 0 ∧
    (Grouper.empty.consume s6Keys).2.getD 4 0
      = (Grouper.empty.consume s6Keys).2.getD 5 0 := by
  refine ⟨by decide, by decide, by decide⟩

/-- C7: the first consumed batch fixes a dictionary-keyed Grouper's
dictionary, and consuming a later batch with a different dictionary
fails with `NotImplemented("Unifying differing dictionaries")` rather
than producing group ids. -/
theorem dict_grouper_divergence {D K : Type} [DecidableEq D] [DecidableEq K]
    (d1 d2 : D) (rows1 rows2 : List K) (hne : d2 ≠ d1) :
    (DictGrouper.empty.consume d1 rows1 =
      .ok (⟨some d1, (Grouper.empty.consume rows1).1⟩,
        (Grouper.empty.consume rows1).2)) ∧
    (∀ g1 : DictGrouper D K, g1.dict = some d1 →
      g1.consume d2 rows2
        = .error (.notImplemented "Unifying differing dictionaries")) := by
  constructor
  · rcases hk : Grouper.empty.consume rows1 with ⟨g1, ids⟩
    simp [DictGrouper.consume, DictGrouper.empty, hk]
  · intro g1 h1
    simp [DictGrouper.consume, h1, hne]

/-- Witness for `dict_grouper_divergence`: dictionaries `["a","b"]` then
`["c","d"]` (scenario S5). -/
theorem dict_grouper_divergence_witness :
    (DictGrouper.empty.consume (K := Option Nat) ["a", "b"] [some 0, some 1] =
      .ok (⟨some ["a", "b"], (Grouper.empty.consume [some 0, some 1]).1⟩,
        (Grouper.empty.consume [some 0, some 1]).2)) ∧
    (DictGrouper.mk (K := Option Nat) (some ["a", "b"])
        Grouper.empty).consume ["c", "d"] [some 0]
      = .error (.notImplemented "Unifying differing dictionaries") :=
  ⟨(dict_grouper_divergence ["a", "b"] ["c", "d"] [some 0, some 1] [some 0]
      (by decide)).1,
   (dict_grouper_divergence ["a", "b"] ["c", "d"] [some 0, some 1] [some 0]
      (by decide)).2 _ rfl⟩

/-! ## GroupByNode output lemmas -/

namespace GBNode

variable {K V S C : Type} [DecidableEq K]

theorem chunk_length_le (n : GBNode K V S C) (i : Nat) :
    (n.chunk i).length ≤ (outputBatchSize n.execChunksize).toNat := by
  simp only [chunk, List.length_take]
  exact min_le_left _ _

theorem initLocalState_fields (n : GBNode K V S C) :
    (n.initLocalStateIfNeeded).execChunksize = n.execChunksize ∧
    (n.initLocalStateIfNeeded).delivered = n.delivered ∧
    (n.initLocalStateIfNeeded).outputCount = n.outputCount ∧
    (n.initLocalStateIfNeeded).finished = n.finished := by
  unfold initLocalStateIfNeeded
  cases n.grouper <;> simp

theorem consumeBatch_fields (n : GBNode K V S C)
    (batch : List (Option V × K)) :
    (n.consumeBatch batch).execChunksize = n.execChunksize ∧
    (n.consumeBatch batch).delivered = n.delivered ∧
    (n.consumeBatch batch).outputCount = n.outputCount ∧
    (n.consumeBatch batch).finished = n.finished := by
  have h := initLocalState_fields n
  simp only [consumeBatch]
  rcases hg : n.initLocalStateIfNeeded.grouper with _ | g
  · simpa using h
  · rcases hk : g.consume (batch.map (·.2)) with ⟨g1, ids⟩
    simpa using h

theorem finalize_fields (n : GBNode K V S C) :
    (n.finalize).execChunksize = n.execChunksize ∧
    (n.finalize).delivered = n.delivered ∧
    (n.finalize).outputCount = n.outputCount := by
  have h := initLocalState_fields n
  simp only [finalize]
  rcases hg : n.initLocalStateIfNeeded.grouper with _ | g
  · simpa using ⟨h.1, h.2.1, h.2.2.1⟩
  · simpa using ⟨h.1, h.2.1, h.2.2.1⟩

theorem outputNthBatch_fields (n : GBNode K V S C) (i : Nat) :
    (n.outputNthBatch i).execChunksize = n.execChunksize ∧
    (n.outputNthBatch i).outData = n.outData ∧
    (n.outputNthBatch i).outputTotal = n.outputTotal := by
  unfold outputNthBatch
  split <;> simp

theorem outputNthBatch_chunk_eq (n : GBNode K V S C) (i j : Nat) :
    (n.outputNthBatch i).chunk j = n.chunk j := by
  have h := outputNthBatch_fields n i
  simp [chunk, h.1, h.2.1]

theorem outputNthBatch_delivered_bounded (n : GBNode K V S C) (i : Nat)
    (h : ∀ b ∈ n.delivered,
      b.length ≤ (outputBatchSize n.execChunksize).toNat) :
    ∀ b ∈ (n.outputNthBatch i).delivered,
      b.length ≤ (outputBatchSize n.execChunksize).toNat := by
  unfold outputNthBatch
  split
  · exact h
  · intro b hb
    simp only [List.mem_append, List.mem_singleton] at hb
    rcases hb with hb | rfl
    · exact h b hb
    · exact chunk_length_le n i

theorem foldl_outputNthBatch_bounded (idxs : List Nat)
    (n : GBNode K V S C)
    (h : ∀ b ∈ n.delivered,
      b.length ≤ (outputBatchSize n.execChunksize).toNat) :
    (idxs.foldl outputNthBatch n).execChunksize = n.execChunksize ∧
    ∀ b ∈ (idxs.foldl outputNthBatch n).delivered,
      b.length ≤ (outputBatchSize n.execChunksize).toNat := by
  induction idxs generalizing n with
  | nil => exact ⟨rfl, h⟩
  | cons i rest ih =>
    simp only [List.foldl_cons]
    have hcs : (n.outputNthBatch i).execChunksize = n.execChunksize :=
      (outputNthBatch_fields n i).1
    have h2 := outputNthBatch_delivered_bounded n i h
    rw [← hcs] at h2
    obtain ⟨e1, e2⟩ := ih (n.outputNthBatch i) h2
    rw [hcs] at e1 e2
    exact ⟨e1, e2⟩

theorem outputResultSerial_bounded (n : GBNode K V S C)
    (h : ∀ b ∈ n.delivered,
      b.length ≤ (outputBatchSize n.execChunksize).toNat) :
    (n.outputResultSerial).execChunksize = n.execChunksize ∧
    ∀ b ∈ (n.outputResultSerial).delivered,
      b.length ≤ (outputBatchSize n.execChunksize).toNat := by
  unfold outputResultSerial
  have hf := finalize_fields n
  have hstart :
      ∀ b ∈ ({ n.finalize with
          downstreamTotal := some (n.finalize.outputTotal.getD 0) }
            : GBNode K V S C).delivered,
        b.length ≤ (outputBatchSize n.execChunksize).toNat := by
    simpa [hf.2.1] using h
  have := foldl_outputNthBatch_bounded
    (List.range (n.finalize.outputTotal.getD 0))
    { n.finalize with downstreamTotal := some (n.finalize.outputTotal.getD 0) }
    (by simpa [hf.1] using hstart)
  simpa [hf.1] using this

theorem inputReceived_bounded (n : GBNode K V S C)
    (batch : List (Option V × K))
    (h : ∀ b ∈ n.delivered,
      b.length ≤ (outputBatchSize n.execChunksize).toNat) :
    (n.inputReceived batch).execChunksize = n.execChunksize ∧
    ∀ b ∈ (n.inputReceived batch).delivered,
      b.length ≤ (outputBatchSize n.execChunksize).toNat := by
  simp only [inputReceived]
  split
  · exact ⟨rfl, h⟩
  · have hc := consumeBatch_fields n batch
    have hmb : ∀ b ∈ ({ n.consumeBatch batch with
          inputCount := (n.consumeBatch batch).inputCount + 1 }
        : GBNode K V S C).delivered,
        b.length ≤ (outputBatchSize n.execChunksize).toNat := by
      simpa [hc.2.1] using h
    split
    · have := outputResultSerial_bounded
        { n.consumeBatch batch with
          inputCount := (n.consumeBatch batch).inputCount + 1 }
        (by simpa [hc.1] using hmb)
      constructor
      · rw [this.1]; simpa using hc.1
      · intro b hb
        have := this.2 b hb
        simpa [hc.1] using this
    · exact ⟨by simpa using hc.1, hmb⟩

theorem inputFinished_bounded (n : GBNode K V S C) (t : Nat)
    (h : ∀ b ∈ n.delivered,
      b.length ≤ (outputBatchSize n.execChunksize).toNat) :
    (n.inputFinished t).execChunksize = n.execChunksize ∧
    ∀ b ∈ (n.inputFinished t).delivered,
      b.length ≤ (outputBatchSize n.execChunksize).toNat := by
  simp only [inputFinished]
  split
  · exact ⟨rfl, h⟩
  · split
    · have := outputResultSerial_bounded
        { n with inputTotal := some t } (by simpa using h)
      exact ⟨by simpa using this.1, by simpa using this.2⟩
    · exact ⟨rfl, h⟩

theorem runSerial_bounded (n : GBNode K V S C)
    (batches : List (List (Option V × K)))
    (h : ∀ b ∈ n.delivered,
      b.length ≤ (outputBatchSize n.execChunksize).toNat) :
    ∀ b ∈ (n.runSerial batches).delivered,
      b.length ≤ (outputBatchSize n.execChunksize).toNat := by
  unfold runSerial
  suffices hfold : (batches.foldl inputReceived n).execChunksize
        = n.execChunksize ∧
      ∀ b ∈ (batches.foldl inputReceived n).delivered,
        b.length ≤ (outputBatchSize n.execChunksize).toNat by
    have := inputFinished_bounded (batches.foldl inputReceived n)
      batches.length (by simpa [hfold.1] using hfold.2)
    intro b hb
    have := this.2 b hb
    simpa [hfold.1] using this
  induction batches generalizing n with
  | nil => exact ⟨rfl, h⟩
  | cons b rest ih =>
    simp only [List.foldl_cons]
    have h1 := inputReceived_bounded n b h
    obtain ⟨e1, e2⟩ := ih (n.inputReceived b) (by simpa [h1.1] using h1.2)
    rw [h1.1] at e1 e2
    exact ⟨e1, e2⟩

theorem outputNthBatch_unfinished (n : GBNode K V S C) (i : Nat)
    (hf : n.finished = false) :
    (n.outputNthBatch i).delivered = n.delivered ++ [n.chunk i] ∧
    (n.outputNthBatch i).outputCount = n.outputCount + 1 ∧
    (n.outputNthBatch i).outputTotal = n.outputTotal ∧
    (n.outputNthBatch i).finished
      = decide (n.outputTotal = some (n.outputCount + 1)) := by
  simp [outputNthBatch, hf]

theorem foldl_outputNthBatch_delivered (N : Nat) (idxs : List Nat)
    (m : GBNode K V S C) (hN : m.outputTotal = some N)
    (hf : m.finished = false) (hc : m.outputCount + idxs.length = N) :
    (idxs.foldl outputNthBatch m).delivered
      = m.delivered ++ idxs.map m.chunk := by
  induction idxs generalizing m with
  | nil => simp
  | cons i rest ih =>
    simp only [List.foldl_cons, List.map_cons]
    obtain ⟨hdel, hcnt, htot, hfin⟩ := outputNthBatch_unfinished m i hf
    cases rest with
    | nil =>
      simp only [List.foldl_nil, List.map_nil]
      exact hdel
    | cons j rest2 =>
      have hfin2 : (m.outputNthBatch i).finished = false := by
        rw [hfin, hN]
        simp only [Option.some.injEq, decide_eq_false_iff_not]
        simp only [List.length_cons] at hc
        omega
      have hN2 : (m.outputNthBatch i).outputTotal = some N := htot.trans hN
      have hc2 : (m.outputNthBatch i).outputCount + (j :: rest2).length = N := by
        rw [hcnt]
        simp only [List.length_cons] at hc ⊢
        omega
      have hrec := ih (m.outputNthBatch i) hN2 hfin2 hc2
      have hmap : (j :: rest2).map (m.outputNthBatch i).chunk
          = (j :: rest2).map m.chunk :=
        List.map_congr_left fun x _ => outputNthBatch_chunk_eq m i x
      rw [hrec, hmap, hdel, List.append_assoc]
      rfl

theorem initLocalState_grouper_some (n : GBNode K V S C) :
    ∃ g, n.initLocalStateIfNeeded.grouper = some g := by
  unfold initLocalStateIfNeeded
  cases h : n.grouper <;> simp [h]

theorem finalize_sets_total (n : GBNode K V S C) :
    ∃ t, n.finalize.outputTotal = some t ∧
      n.finalize.finished = (n.finished || decide (t = 0)) ∧
      n.finalize.outputCount = n.outputCount := by
  obtain ⟨kern, cs, gr, ags, ic, it, oc, ot, od, dt, dl, fin⟩ := n
  cases gr <;> exact ⟨_, rfl, rfl, rfl⟩

theorem outputResultSerial_eq (n : GBNode K V S C) :
    n.outputResultSerial
      = (List.range (n.finalize.outputTotal.getD 0)).foldl outputNthBatch
          { n.finalize with
            downstreamTotal := some (n.finalize.outputTotal.getD 0) } := rfl

theorem outputResultWithExecutor_eq (n : GBNode K V S C) (sched : List Nat) :
    n.outputResultWithExecutor sched
      = sched.foldl outputNthBatch
          { n.finalize with
            downstreamTotal := some (n.finalize.outputTotal.getD 0) } := rfl

theorem outputResultSerial_delivered (n : GBNode K V S C)
    (hf : n.finished = false) (hc : n.outputCount = 0) :
    (n.outputResultSerial).delivered
      = n.delivered
        ++ (List.range (n.finalize.outputTotal.getD 0)).map n.finalize.chunk := by
  obtain ⟨t, ht, hfin, hcnt⟩ := finalize_sets_total n
  have hdel := (finalize_fields n).2.1
  rw [outputResultSerial_eq, ht]
  simp only [Option.getD_some]
  by_cases h0 : t = 0
  · subst h0
    simpa using hdel
  · have hm : ({ n.finalize with downstreamTotal := some t }
        : GBNode K V S C).finished = false := by
      simp [hfin, hf, h0]
    have hN : ({ n.finalize with downstreamTotal := some t }
        : GBNode K V S C).outputTotal = some t := by simp [ht]
    have hcc : ({ n.finalize with downstreamTotal := some t }
        : GBNode K V S C).outputCount + (List.range t).length = t := by
      simp [hcnt, hc]
    have hrun := foldl_outputNthBatch_delivered t (List.range t) _ hN hm hcc
    have h2 : ({ n.finalize with downstreamTotal := some t }
        : GBNode K V S C).delivered = n.delivered := by simpa using hdel
    have h3 : (List.range t).map ({ n.finalize with downstreamTotal := some t }
          : GBNode K V S C).chunk
        = (List.range t).map n.finalize.chunk :=
      List.map_congr_left fun x _ => by simp [chunk]
    rw [hrun, h2, h3]

theorem outputResultWithExecutor_delivered (n : GBNode K V S C)
    (sched : List Nat) (hf : n.finished = false) (hc : n.outputCount = 0)
    (hperm : sched.Perm (List.range (n.finalize.outputTotal.getD 0))) :
    (n.outputResultWithExecutor sched).delivered
      = n.delivered ++ sched.map n.finalize.chunk := by
  obtain ⟨t, ht, hfin, hcnt⟩ := finalize_sets_total n
  have hdel := (finalize_fields n).2.1
  have hlen : sched.length = t := by
    have := hperm.length_eq
    simpa [ht] using this
  rw [outputResultWithExecutor_eq, ht]
  simp only [Option.getD_some]
  by_cases h0 : t = 0
  · subst h0
    have : sched = [] := List.length_eq_zero.1 hlen
    subst this
    simpa using hdel
  · have hm : ({ n.finalize with downstreamTotal := some t }
        : GBNode K V S C).finished = false := by
      simp [hfin, hf, h0]
    have hN : ({ n.finalize with downstreamTotal := some t }
        : GBNode K V S C).outputTotal = some t := by simp [ht]
    have hcc : ({ n.finalize with downstreamTotal := some t }
        : GBNode K V S C).outputCount + sched.length = t := by
      simp [hcnt, hc, hlen]
    have hrun := foldl_outputNthBatch_delivered t sched _ hN hm hcc
    have h2 : ({ n.finalize with downstreamTotal := some t }
        : GBNode K V S C).delivered = n.delivered := by simpa using hdel
    have h3 : sched.map ({ n.finalize with downstreamTotal := some t }
          : GBNode K V S C).chunk
        = sched.map n.finalize.chunk :=
      List.map_congr_left fun x _ => by simp [chunk]
    rw [hrun, h2, h3]

end GBNode

/-- C1 counterexample: with the context's exec chunk size set to 0
(which is ≤ 0), `output_batch_size` is 0, not the default `32 * 1024` —
the code substitutes the default only for strictly negative values. -/
theorem outputBatchSize_zero_counterexample :
    (0 : Int) ≤ 0 ∧ outputBatchSize 0 = 0 ∧ outputBatchSize 0 ≠ 32 * 1024 := by
  refine ⟨by decide, by decide, by decide⟩

/-- C1 (amended): every chunk delivered for a finalized GroupByNode
result has at most `output_batch_size` rows, where `output_batch_size`
is the context's exec chunk size (truncated to a 32-bit int) when that
truncation is nonnegative, and the default `32 * 1024` when the
truncation is strictly negative.  (An exec chunk size whose truncation
is 0 is excluded: there the chunk-count division in `Finalize` divides
by zero.) -/
theorem groupby_output_chunk_bound {K V S C : Type} [DecidableEq K]
    (kernel : HashKernel V S C) (cs : Int)
    (batches : List (List (Option V × K))) (hcs : toInt32 cs ≠ 0) :
    (∀ b ∈ ((GBNode.make kernel cs).runSerial batches).delivered,
        b.length ≤ (outputBatchSize cs).toNat) ∧
    (toInt32 cs < 0 → outputBatchSize cs = 32 * 1024) := by
  constructor
  · have := GBNode.runSerial_bounded (GBNode.make kernel cs) batches
      (by simp [GBNode.make])
    simpa [GBNode.make] using this
  · intro h
    simp [outputBatchSize, if_pos h]

/-- Witness for `groupby_output_chunk_bound` at exec chunk size -1. -/
theorem groupby_output_chunk_bound_witness :
    toInt32 (-1) ≠ 0 ∧
    [((1 : Nat), (some 10 : Option Int))]
        ∈ ((GBNode.make (K := Option Int) (countKernel ℚ) (-1)).runSerial
            [[(some 1, some 10)]]).delivered ∧
    [((1 : Nat), (some 10 : Option Int))].length
        ≤ (outputBatchSize (-1)).toNat ∧
    outputBatchSize (-1) = 32 * 1024 :=
  ⟨by decide, by decide,
   (groupby_output_chunk_bound (countKernel ℚ) (-1) [[(some 1, some 10)]]
      (by decide)).1 _ (by decide),
   (groupby_output_chunk_bound (countKernel ℚ) (-1) [[(some 1, some 10)]]
      (by decide)).2 (by decide)⟩

/-- C2 counterexample: with a thread-pool executor, each chunk is an
independently scheduled task, and an executor that runs the two spawned
tasks in the order `[1, 0]` delivers chunk 1 (rows `[1, 2)`) before
chunk 0 (rows `[0, 1)`): ascending row-index delivery is not guaranteed
on the executor path. -/
theorem groupby_executor_out_of_order :
    [1, 0].Perm (List.range 2) ∧
    (twoChunkNode.outputResultWithExecutor [1, 0]).delivered
      = [[(1, some 20)], [(1, some 10)]] := by
  refine ⟨by decide, by decide⟩

/-- C2 (amended): with no executor configured, output chunks are
delivered serially in ascending row-index order (the delivered sequence
is exactly chunk 0, chunk 1, …).  With a thread-pool executor, each
chunk is an independently scheduled task: the chunks are delivered in
the executor's schedule order — a permutation of all chunk indices, not
necessarily ascending. -/
theorem groupby_output_order {K V S C : Type} [DecidableEq K]
    (n : GBNode K V S C) (hf : n.finished = false) (hc : n.outputCount = 0)
    (hd : n.delivered = []) :
    ((n.outputResultSerial).delivered
      = (List.range (n.finalize.outputTotal.getD 0)).map n.finalize.chunk) ∧
    (∀ sched, sched.Perm (List.range (n.finalize.outputTotal.getD 0)) →
      (n.outputResultWithExecutor sched).delivered
          = sched.map n.finalize.chunk ∧
      ((n.outputResultWithExecutor sched).delivered).Perm
        ((List.range (n.finalize.outputTotal.getD 0)).map n.finalize.chunk)) := by
  constructor
  · have := GBNode.outputResultSerial_delivered n hf hc
    simpa [hd] using this
  · intro sched hperm
    have hdeq := GBNode.outputResultWithExecutor_delivered n sched hf hc hperm
    refine ⟨by simpa [hd] using hdeq, ?_⟩
    rw [hdeq, hd]
    simpa using hperm.map n.finalize.chunk

/-- Witness for `groupby_output_order` on a two-chunk node and the
schedule `[1, 0]`. -/
theorem groupby_output_order_witness :
    (twoChunkNode.outputResultSerial).delivered
      = (List.range (twoChunkNode.finalize.outputTotal.getD 0)).map
          twoChunkNode.finalize.chunk ∧
    (twoChunkNode.outputResultWithExecutor [1, 0]).delivered
      = [1, 0].map twoChunkNode.finalize.chunk :=
  ⟨(groupby_output_order twoChunkNode (by decide) (by decide) (by decide)).1,
   ((groupby_output_order twoChunkNode (by decide) (by decide) (by decide)).2
      [1, 0] (by decide)).1⟩

/-- C10: once the GroupByNode's finished future is resolved, every
subsequent `InputReceived`, `InputFinished`, or pending `OutputNthBatch`
invocation returns with the node state unchanged — nothing is consumed,
no grouper or kernel state is mutated, nothing is delivered. -/
theorem groupby_finished_noop {K V S C : Type} [DecidableEq K]
    (n : GBNode K V S C) (batch : List (Option V × K)) (t i : Nat)
    (h : n.finished = true) :
    n.inputReceived batch = n ∧ n.inputFinished t = n ∧
    n.outputNthBatch i = n := by
  refine ⟨?_, ?_, ?_⟩ <;>
    simp [GBNode.inputReceived, GBNode.inputFinished, GBNode.outputNthBatch, h]

/-- Witness for `groupby_finished_noop` on a concrete finished node. -/
theorem groupby_finished_noop_witness :
    gbFinishedNode.inputReceived [(some 1, some 1)] = gbFinishedNode ∧
    gbFinishedNode.inputFinished 3 = gbFinishedNode ∧
    gbFinishedNode.outputNthBatch 0 = gbFinishedNode :=
  groupby_finished_noop gbFinishedNode [(some 1, some 1)] 3 0 rfl

/-- C4: the S1 CountOnly scenario.  The serial path delivers exactly the
rows `[(2,1),(3,2),(0,3),(2,null)]` (already in key order), and every
two-partition assignment of the three input batches, merged through the
leader's transposition and finalized, yields the same rows after sorting
by key. -/
theorem groupby_s1_count :
    ((GBNode.make (K := Option Int) (countKernel ℚ) (-1)).runSerial
        s1Batches).delivered = [s1Expected] ∧
    (∀ assign ∈ s1Assignments,
      sortLe (fun a b => keyLe a.2 b.2) (s1MergedRun assign) = s1Expected) := by
  refine ⟨by decide, by decide⟩

/-- Witness for `groupby_s1_count` at a concrete batch assignment. -/
theorem groupby_s1_count_witness :
    sortLe (fun a b => keyLe a.2 b.2) (s1MergedRun [false, true, false])
      = s1Expected :=
  (groupby_s1_count).2 [false, true, false] (by decide)

namespace SANode

variable {B S C : Type} [Inhabited B]

theorem doConsume_fields (n : SANode B S C) (batch : List B) (thread : Nat) :
    (n.doConsume batch thread).inputTotal = n.inputTotal ∧
    (n.doConsume batch thread).inputCount = n.inputCount ∧
    (n.doConsume batch thread).delivered = n.delivered ∧
    (n.doConsume batch thread).finished = n.finished ∧
    (n.doConsume batch thread).kernelStates.length
      = n.kernelStates.length := by
  simp [doConsume]

theorem inputReceived_none (n : SANode B S C) (batch : List B)
    (thread : Nat) (h : n.inputTotal = none) :
    (n.inputReceived batch thread).inputTotal = none ∧
    (n.inputReceived batch thread).delivered = n.delivered ∧
    (n.inputReceived batch thread).finished = n.finished ∧
    (n.inputReceived batch thread).inputCount = n.inputCount + 1 ∧
    (n.inputReceived batch thread).kernelStates.length
      = n.kernelStates.length := by
  have hd := doConsume_fields n batch thread
  simp [inputReceived, hd.1, hd.2.1, hd.2.2.1, hd.2.2.2.1, hd.2.2.2.2, h]

theorem fold_inputReceived_fields (batches : List (List B))
    (n : SANode B S C) (h : n.inputTotal = none) :
    (batches.foldl (fun a b => a.inputReceived b 0) n).inputTotal = none ∧
    (batches.foldl (fun a b => a.inputReceived b 0) n).delivered
      = n.delivered ∧
    (batches.foldl (fun a b => a.inputReceived b 0) n).finished
      = n.finished ∧
    (batches.foldl (fun a b => a.inputReceived b 0) n).inputCount
      = n.inputCount + batches.length ∧
    (batches.foldl (fun a b => a.inputReceived b 0) n).kernelStates.length
      = n.kernelStates.length := by
  induction batches generalizing n with
  | nil => simp [h]
  | cons b rest ih =>
    simp only [List.foldl_cons, List.length_cons]
    have h1 := inputReceived_none n b 0 h
    obtain ⟨e1, e2, e3, e4, e5⟩ := ih (n.inputReceived b 0) h1.1
    refine ⟨e1, e2.trans h1.2.1, e3.trans h1.2.2.1, ?_,
      e5.trans h1.2.2.2.2⟩
    rw [e4, h1.2.2.2.1]
    omega

theorem finish_delivered (n : SANode B S C) :
    (n.finish).delivered = n.delivered ++ [(1, n.finalColumns)] := by
  simp [finish]

theorem finish_finalColumns (n : SANode B S C) :
    (n.finish).finalColumns = n.finalColumns := by
  simp [finish, finalColumns]

theorem finish_kernelStates (n : SANode B S C) :
    (n.finish).kernelStates = n.kernelStates := by
  simp [finish]

theorem finalColumns_length (n : SANode B S C) :
    n.finalColumns.length = n.kernelStates.length := by
  simp [finalColumns]

end SANode

/-- C8: the zero-key ScalarAggregateNode always emits exactly one output
batch of length 1 whose i-th column is the finalized merge of the i-th
kernel's per-thread states; per-kernel states are initialized at
construction, so with zero input batches the finalize still produces one
row of each kernel's identity-derived result. -/
theorem scalar_agg_single_output {B S C : Type} [Inhabited B]
    (kernels : List (SAKernel B S C × Nat)) (cap : Nat)
    (batches : List (List B)) :
    ((SANode.make kernels cap).runSerial batches).delivered
        = [(1, ((SANode.make kernels cap).runSerial batches).finalColumns)] ∧
    ((SANode.make kernels cap).runSerial batches).finalColumns.length
        = kernels.length ∧
    (batches = [] →
      ((SANode.make kernels cap).runSerial batches).finalColumns
        = kernels.map fun kf =>
            kf.1.finalize (mergeAll kf.1 (List.replicate cap kf.1.init))) := by
  have hm := SANode.fold_inputReceived_fields batches (SANode.make kernels cap)
    (by simp [SANode.make])
  have hcount : (batches.foldl (fun a b => a.inputReceived b 0)
      (SANode.make kernels cap)).inputCount = batches.length := by
    rw [hm.2.2.2.1]
    simp [SANode.make]
  have hrun : (SANode.make kernels cap).runSerial batches
      = ({ batches.foldl (fun a b => a.inputReceived b 0)
            (SANode.make kernels cap) with
          inputTotal := some batches.length } : SANode B S C).finish := by
    simp only [SANode.runSerial, SANode.inputFinished]
    rw [if_pos (by simpa using hcount)]
  refine ⟨?_, ?_, ?_⟩
  · rw [hrun, SANode.finish_delivered, SANode.finish_finalColumns]
    have hdel : ({ batches.foldl (fun a b => a.inputReceived b 0)
          (SANode.make kernels cap) with
        inputTotal := some batches.length } : SANode B S C).delivered = [] := by
      have := hm.2.1
      simp only [SANode.make] at this
      simpa using this
    rw [hdel]
    rfl
  · have hfc := SANode.finish_finalColumns
      ({ batches.foldl (fun a b => a.inputReceived b 0)
          (SANode.make kernels cap) with
        inputTotal := some batches.length } : SANode B S C)
    rw [hrun, hfc, SANode.finalColumns_length]
    have := hm.2.2.2.2
    simpa [SANode.make] using this
  · rintro rfl
    rw [hrun]
    simp [SANode.finish_finalColumns, SANode.finish_kernelStates,
      SANode.finalColumns, SANode.make, List.foldl_nil, List.map_map,
      Function.comp]

/-- Witness for `scalar_agg_single_output` with zero input batches. -/
theorem scalar_agg_single_output_witness :
    ((SANode.make [(demoSAKernel, 0)] 2).runSerial []).delivered
      = [(1, ((SANode.make [(demoSAKernel, 0)] 2).runSerial
          []).finalColumns)] ∧
    ((SANode.make [(demoSAKernel, 0)] 2).runSerial []).finalColumns
      = [demoSAKernel.finalize
          (mergeAll demoSAKernel (List.replicate 2 demoSAKernel.init))] :=
  ⟨(scalar_agg_single_output [(demoSAKernel, 0)] 2 []).1,
   by
    have := (scalar_agg_single_output [(demoSAKernel, 0)] 2 []).2.2 rfl
    simpa using this⟩

/-- C9: when a named aggregate function resolves in the registry but its
kind is not `SCALAR_AGGREGATE`, construction of the zero-key aggregate
node fails with `Invalid("Provided non ScalarAggregateFunction ...")`. -/
theorem scalar_agg_non_aggregate_invalid
    (getFunction : String → Except AError FunctionKind) (name : String)
    (kind : FunctionKind) (hres : getFunction name = .ok kind)
    (hk : kind ≠ .scalarAggregate) :
    resolveScalarAggregate getFunction name
      = .error (.invalid ("Provided non ScalarAggregateFunction " ++ name)) := by
  simp [resolveScalarAggregate, hres, hk]

/-- Witness for `scalar_agg_non_aggregate_invalid`: a registry resolving
"hash_count" to a hash-aggregate function. -/
theorem scalar_agg_non_aggregate_invalid_witness :
    resolveScalarAggregate (fun _ => .ok .hashAggregate) "hash_count"
      = .error (.invalid
          ("Provided non ScalarAggregateFunction " ++ "hash_count")) :=
  scalar_agg_non_aggregate_invalid (fun _ => .ok .hashAggregate)
    "hash_count" .hashAggregate rfl (by decide)

end ArrowAgg
